import Mathlib

/-!
# CityFix backend: authentication and report creation

A shallow embedding of `server.js`: the two SQLite tables, the bootstrap-admin
upsert, the `authenticateToken` middleware and the three POST handlers
(`/api/register`, `/api/login`, `/api/reports`).

Conventions of the embedding.

* A request-body field is a `JsVal`: absent (`undefined`), JSON `null`, or a string.
  Numbers, booleans and nested objects in a body are outside the embedding.
* `bcryptjs` and `jsonwebtoken` are external libraries.  They are parameters
  (`Bcrypt`, `Jwt`); what a theorem needs from them is a named, explicit hypothesis.
* `JWT_SECRET` is a string parameter (the process is assumed to be configured).
* Random and clock inputs (bcrypt salt, `Date.now()`, `CURRENT_TIMESTAMP`) are
  explicit arguments.
* Every database statement takes `fault : Option String`: `some msg` is an error
  raised by the storage layer itself (I/O error, busy database, ...) with message
  `msg`, in which case nothing is written; `none` means that only the declared
  constraints can make the statement fail.
* SQLite is run with its defaults: foreign keys are declared but not enforced,
  `NOT NULL` is checked before `UNIQUE`, and `AUTOINCREMENT` hands out
  `max (sqlite_sequence, largest rowid) + 1`.
-/

namespace CityFix

/-! ## JavaScript values and string helpers -/

/-- A field of a parsed request body. -/
inductive JsVal where
  | undefined
  | null
  | str (s : String)
  deriving DecidableEq, Repr

/-- The value node-sqlite3 binds for a parameter: `undefined` is left unbound and
`null` is bound as NULL, so both reach SQLite as NULL; a string is bound as TEXT. -/
def JsVal.toSql : JsVal → Option String
  | .undefined => none
  | .null => none
  | .str s => some s

/-- A nullable TEXT column read back into JavaScript. -/
def sqlToJs : Option String → JsVal
  | none => .null
  | some s => .str s

/-- JavaScript `typeof`, as far as `JsVal` goes. -/
def JsVal.typeof : JsVal → String
  | .undefined => "undefined"
  | .null => "object"
  | .str _ => "string"

/-- Does `needle` start the character list? -/
def startsWithChars : List Char → List Char → Bool
  | [], _ => true
  | _ :: _, [] => false
  | n :: ns, c :: cs => n == c && startsWithChars ns cs

/-- Does `needle` occur somewhere in the character list? -/
def includesChars (needle : List Char) : List Char → Bool
  | [] => startsWithChars needle []
  | c :: cs => startsWithChars needle (c :: cs) || includesChars needle cs

/-- JavaScript `s.includes(needle)`. -/
def jsIncludes (s needle : String) : Bool :=
  includesChars needle.data s.data

/-- JavaScript `s.split(sep)` for a one-character separator, on character lists. -/
def splitOnChar (sep : Char) : List Char → List (List Char)
  | [] => [[]]
  | c :: cs =>
    if c = sep then [] :: splitOnChar sep cs
    else
      match splitOnChar sep cs with
      | [] => [[c]]
      | w :: ws => (c :: w) :: ws

/-- The space character, the separator of `authHeader.split(' ')`. -/
def spaceChar : Char := Char.ofNat 32

/-! ## HTTP responses -/

/-- The `user` object of a successful register or login response: exactly the four
fields `id`, `name`, `email`, `role` written at lines 136 and 160. -/
structure PublicUser where
  id : Nat
  name : JsVal
  email : JsVal
  role : JsVal
  deriving DecidableEq, Repr

/-- The JSON body passed to `res.json`. -/
inductive Body where
  | auth (token : String) (user : PublicUser)
  | error (msg : String)
  | report (reportId : Nat)
  deriving DecidableEq, Repr

/-- An HTTP response: status code (200 when `res.status` is not called) and body. -/
structure Response where
  status : Nat
  body : Body
  deriving DecidableEq, Repr

/-- Line 126. -/
def duplicateEmail : Response := ⟨400, .error "Email already exists"⟩

/-- Line 127. -/
def registrationFailed : Response := ⟨500, .error "Registration failed"⟩

/-- Lines 140 and 149. -/
def serverError : Response := ⟨500, .error "Server error"⟩

/-- Line 152. -/
def invalidCredentials : Response := ⟨401, .error "Invalid credentials"⟩

/-- Line 102. -/
def tokenRequired : Response := ⟨401, .error "Token required"⟩

/-- Line 105. -/
def invalidToken : Response := ⟨403, .error "Invalid token"⟩

/-- Line 174. -/
def reportFailed : Response := ⟨500, .error "Report failed"⟩

/-! ## External libraries -/

/-- The part of `bcryptjs` the server uses, on string arguments:
`hash plaintext rounds salt` and `compare plaintext digest`. -/
structure Bcrypt where
  hash : String → Nat → String → String
  compare : String → String → Bool

/-- The promise `bcrypt.hash(s, 10)`: it rejects unless `s` is a string. -/
def bcryptHash (B : Bcrypt) (s : JsVal) (rounds : Nat) (salt : String) : Except String String :=
  match s with
  | .str p => .ok (B.hash p rounds salt)
  | v => .error ("Illegal arguments: " ++ v.typeof ++ ", number")

/-- The promise `bcrypt.compare(s, digest)`: it rejects unless `s` is a string. -/
def bcryptCompare (B : Bcrypt) (s : JsVal) (digest : String) : Except String Bool :=
  match s with
  | .str p => .ok (B.compare p digest)
  | v => .error ("Illegal arguments: " ++ v.typeof ++ ", string")

/-- The payload of an identity token: what `jwt.sign` is given plus `iat` and `exp`. -/
structure Claims where
  id : Nat
  email : JsVal
  role : JsVal
  iat : Nat
  exp : Nat
  deriving DecidableEq, Repr

/-- The part of `jsonwebtoken` the server uses: `sign payload secret` and
`verify token secret clock` (`none` is the `err` case of the callback). -/
structure Jwt where
  sign : Claims → String → String
  verify : String → String → Nat → Option Claims

/-- The call `jwt.sign(payload, JWT_SECRET, expiresIn 24h)` at clock `now` (seconds). -/
def jwtSign (J : Jwt) (secret : String) (now : Nat) (id : Nat) (email role : JsVal) : String :=
  J.sign ⟨id, email, role, now, now + 86400⟩ secret

/-- Library law: verifying a token signed with the same secret before its expiry
returns the signed payload. -/
def JwtComplete (J : Jwt) (secret : String) : Prop :=
  ∀ (c : Claims) (t : Nat), t < c.exp → J.verify (J.sign c secret) secret t = some c

/-- Library law: whatever verification of a signed token returns is the signed payload. -/
def JwtSound (J : Jwt) (secret : String) : Prop :=
  ∀ (c d : Claims) (t : Nat), J.verify (J.sign c secret) secret t = some d → d = c

/-- Library law: a digest produced by `hash` verifies against its plaintext. -/
def BcryptCorrect (B : Bcrypt) : Prop :=
  ∀ (p salt : String) (rounds : Nat), B.compare p (B.hash p rounds salt) = true

/-! ## The database -/

/-- A row of `users` (lines 31-41). -/
structure UserRow where
  id : Nat
  name : String
  email : String
  password : String
  role : Option String
  location : Option String
  latitude : Option String
  longitude : Option String
  created_at : Nat
  deriving DecidableEq, Repr

/-- A row of `reports` (lines 43-59).  The REAL columns keep the bound text. -/
structure ReportRow where
  id : Nat
  user_id : Option Nat
  category : String
  photo : Option String
  location : Option String
  latitude : Option String
  longitude : Option String
  description : Option String
  status : Option String
  assigned_worker_id : Option Nat
  admin_notes : Option String
  created_at : Nat
  updated_at : Nat
  deriving DecidableEq, Repr

/-- The database file: both tables in insertion order and their
`sqlite_sequence` counters. -/
structure Store where
  users : List UserRow
  userSeq : Nat
  reports : List ReportRow
  reportSeq : Nat
  deriving DecidableEq, Repr

/-- A freshly created database. -/
def emptyStore : Store := ⟨[], 0, [], 0⟩

/-- The rowid an AUTOINCREMENT table hands out next. -/
def nextRowid (seq : Nat) (ids : List Nat) : Nat :=
  max seq (ids.foldr max 0) + 1

/-- The UNIQUE constraint on `users.email` holds in the store. -/
def UniqueEmails (S : Store) : Prop :=
  (S.users.map (fun u => u.email)).Nodup

/-- The well-known admin email (line 65). -/
def adminEmail : String := "admin@cityfix.com"

/-- The well-known admin password (line 62). -/
def adminPlaintext : String := "admin123"

/-- The statement `INSERT INTO users (name, email, password, role) VALUES (?, ?, ?, ?)`.
Returns `err` or `this.lastID`, and the store afterwards. -/
def insertUser (fault : Option String) (now : Nat) (name email password role : Option String)
    (S : Store) : Except String Nat × Store :=
  match fault with
  | some msg => (.error msg, S)
  | none =>
    match name, email, password with
    | none, _, _ => (.error "SQLITE_CONSTRAINT: NOT NULL constraint failed: users.name", S)
    | some _, none, _ => (.error "SQLITE_CONSTRAINT: NOT NULL constraint failed: users.email", S)
    | some _, some _, none =>
      (.error "SQLITE_CONSTRAINT: NOT NULL constraint failed: users.password", S)
    | some n, some e, some p =>
      if S.users.any (fun u => u.email = e) then
        (.error "SQLITE_CONSTRAINT: UNIQUE constraint failed: users.email", S)
      else
        let id := nextRowid S.userSeq (S.users.map (fun u => u.id))
        (.ok id, { S with
          users := S.users ++ [⟨id, n, e, p, role, none, none, none, now⟩],
          userSeq := id })

/-- The statement `SELECT * FROM users WHERE email = ?` run through `db.get`:
`err`, or the first matching row, or no row.  A NULL parameter matches nothing. -/
def getUserByEmail (fault : Option String) (email : Option String) (S : Store) :
    Except String (Option UserRow) :=
  match fault with
  | some msg => .error msg
  | none =>
    match email with
    | none => .ok none
    | some e => .ok (S.users.find? (fun u => u.email = e))

/-- The upsert of lines 63-67:
`INSERT ... VALUES ('Admin', 'admin@cityfix.com', ?, 'admin')
 ON CONFLICT(email) DO UPDATE SET password=excluded.password`.
Returns `err` and the store afterwards.  The rowid is drawn before the conflict is
detected, so the sequence counter advances on both paths. -/
def upsertAdmin (fault : Option String) (now : Nat) (password : String) (S : Store) :
    Option String × Store :=
  match fault with
  | some msg => (some msg, S)
  | none =>
    let id := nextRowid S.userSeq (S.users.map (fun u => u.id))
    if S.users.any (fun u => u.email = adminEmail) then
      (none, { S with
        users := S.users.map (fun u =>
          if u.email = adminEmail then { u with password := password } else u),
        userSeq := id })
    else
      (none, { S with
        users := S.users ++ [⟨id, "Admin", adminEmail, password, some "admin",
          none, none, none, now⟩],
        userSeq := id })

/-- The statement `INSERT INTO reports (user_id, category, photo, location, latitude,
longitude, description) VALUES (?, ?, ?, ?, ?, ?, ?)`.  `status` takes its default. -/
def insertReport (fault : Option String) (now : Nat) (user_id : Option Nat)
    (category photo location latitude longitude description : Option String)
    (S : Store) : Except String Nat × Store :=
  match fault with
  | some msg => (.error msg, S)
  | none =>
    match category with
    | none => (.error "SQLITE_CONSTRAINT: NOT NULL constraint failed: reports.category", S)
    | some c =>
      let id := nextRowid S.reportSeq (S.reports.map (fun r => r.id))
      (.ok id, { S with
        reports := S.reports ++ [⟨id, user_id, c, photo, location, latitude, longitude,
          description, some "submitted", none, none, now, now⟩],
        reportSeq := id })

/-! ## Bootstrap admin (lines 61-72) -/

/-- The line the upsert callback writes to the console. -/
inductive BootLog where
  | ensured
  | failed (msg : String)
  deriving DecidableEq, Repr

/-- The startup routine: hash the well-known password, run the upsert, log. -/
def bootstrapAdmin (B : Bcrypt) (fault : Option String) (salt : String) (now : Nat)
    (S : Store) : BootLog × Store :=
  let adminPassword := B.hash adminPlaintext 10 salt
  match upsertAdmin fault now adminPassword S with
  | (some msg, S1) => (.failed msg, S1)
  | (none, S1) => (.ensured, S1)

/-! ## Access gate (lines 98-109) -/

/-- The expression `authHeader && authHeader.split(' ')[1]`; `none` is `undefined`. -/
def headerToken (authHeader : Option String) : Option String :=
  match authHeader with
  | none => none
  | some h =>
    if h = "" then some ""
    else ((splitOnChar spaceChar h.data).get? 1).map String.mk

/-- The token the gate goes on to verify: `headerToken` when it is truthy. -/
def extractToken (authHeader : Option String) : Option String :=
  match headerToken authHeader with
  | none => none
  | some t => if t = "" then none else some t

/-- What a middleware does with a request: end it with a response, or call `next()`
once with `req.user` set. -/
inductive GateOutcome where
  | respond (r : Response)
  | next (user : Claims)
  deriving DecidableEq, Repr

/-- How many times the outcome runs the downstream handler. -/
def GateOutcome.nextCalls : GateOutcome → Nat
  | .respond _ => 0
  | .next _ => 1

/-- The middleware `authenticateToken`. -/
def authenticateToken (J : Jwt) (secret : String) (clock : Nat) (authHeader : Option String) :
    GateOutcome :=
  match headerToken authHeader with
  | none => .respond tokenRequired
  | some token =>
    if token = "" then .respond tokenRequired
    else
      match J.verify token secret clock with
      | none => .respond invalidToken
      | some user => .next user

/-- The header carries the token `t`: the header is a first field without a space, one
space, and then the non-empty, space-free `t`, which either ends the header or is
followed by a space and anything.  This is the reading of "a bearer token can be
extracted from the Authorization header" the gate is compared with; the word of the
first field is not examined. -/
def HeaderCarries (h : String) (t : List Char) : Prop :=
  ∃ scheme rest : List Char, spaceChar ∉ scheme ∧ spaceChar ∉ t ∧ t ≠ [] ∧
    (h.data = scheme ++ spaceChar :: t ∨ h.data = scheme ++ spaceChar :: (t ++ spaceChar :: rest))

/-! ## Handlers -/

/-- The body of `POST /api/register`. -/
structure RegisterBody where
  name : JsVal
  email : JsVal
  password : JsVal
  role : JsVal
  deriving DecidableEq, Repr

/-- The destructuring default `role = 'citizen'`: it applies to `undefined` only. -/
def defaultRole (role : JsVal) : JsVal :=
  match role with
  | .undefined => .str "citizen"
  | r => r

/-- The handler of `POST /api/register` (lines 114-142). -/
def register (B : Bcrypt) (J : Jwt) (secret : String) (fault : Option String)
    (salt : String) (now : Nat) (body : RegisterBody) (S : Store) : Response × Store :=
  let role := defaultRole body.role
  match bcryptHash B body.password 10 salt with
  | .error _ => (serverError, S)
  | .ok hashedPassword =>
    match insertUser fault now body.name.toSql body.email.toSql (some hashedPassword)
        role.toSql S with
    | (.error msg, S1) =>
      if jsIncludes msg "UNIQUE" then (duplicateEmail, S1) else (registrationFailed, S1)
    | (.ok lastID, S1) =>
      (⟨200, .auth (jwtSign J secret now lastID body.email role)
        ⟨lastID, body.name, body.email, role⟩⟩, S1)

/-- The body of `POST /api/login`. -/
structure LoginBody where
  email : JsVal
  password : JsVal
  deriving DecidableEq, Repr

/-- The handler of `POST /api/login` (lines 145-162).  `none` means that no response
is ever sent: the promise of `bcrypt.compare` rejected inside the `db.get` callback. -/
def login (B : Bcrypt) (J : Jwt) (secret : String) (fault : Option String) (now : Nat)
    (body : LoginBody) (S : Store) : Option Response :=
  match getUserByEmail fault body.email.toSql S with
  | .error _ => some serverError
  | .ok none => some invalidCredentials
  | .ok (some user) =>
    match bcryptCompare B body.password user.password with
    | .error _ => none
    | .ok false => some invalidCredentials
    | .ok true =>
      some ⟨200, .auth (jwtSign J secret now user.id (.str user.email) (sqlToJs user.role))
        ⟨user.id, .str user.name, .str user.email, sqlToJs user.role⟩⟩

/-- The text fields of `POST /api/reports`. -/
structure ReportBody where
  category : JsVal
  location : JsVal
  latitude : JsVal
  longitude : JsVal
  description : JsVal
  deriving DecidableEq, Repr

/-- The handler of `POST /api/reports` (lines 165-178), run after the gate has set
`req.user` and multer has set `req.file` (`file` is the generated filename, if any). -/
def submitReport (fault : Option String) (now : Nat) (user : Claims) (body : ReportBody)
    (file : Option String) (S : Store) : Response × Store :=
  let photo := file
  match insertReport fault now (some user.id) body.category.toSql photo body.location.toSql
      body.latitude.toSql body.longitude.toSql body.description.toSql S with
  | (.error _, S1) => (reportFailed, S1)
  | (.ok lastID, S1) => (⟨200, .report lastID⟩, S1)

/-- The route `POST /api/reports`: the gate, then the handler. -/
def postReports (J : Jwt) (secret : String) (fault : Option String) (now : Nat)
    (authHeader : Option String) (body : ReportBody) (file : Option String) (S : Store) :
    Response × Store :=
  match authenticateToken J secret now authHeader with
  | .respond r => (r, S)
  | .next user => submitReport fault now user body file S

/-! ## Runs of the server -/

/-- The database together with the tokens the server has handed out so far. -/
structure World where
  store : Store
  issued : List String

/-- The token a response carries, if any. -/
def Response.tokens : Response → List String
  | ⟨_, .auth t _⟩ => [t]
  | ⟨_, .error _⟩ => []
  | ⟨_, .report _⟩ => []

/-- One event in the life of the server: a startup, or one request.  A `submit`
presents a token; the clock at which the gate verifies it is `clock`. -/
inductive Action where
  | boot (fault : Option String) (salt : String) (now : Nat)
  | register (fault : Option String) (salt : String) (now : Nat) (body : RegisterBody)
  | login (fault : Option String) (now : Nat) (body : LoginBody)
  | submit (token : String) (clock : Nat) (fault : Option String) (now : Nat)
      (body : ReportBody) (file : Option String)

/-- The effect of one event.  A `submit` reaches the handler only with the identity
obtained by verifying a token that `register` or `login` issued earlier; any other
submission leaves the world as it is. -/
def step (B : Bcrypt) (J : Jwt) (secret : String) (w : World) : Action → World
  | .boot fault salt now => ⟨(bootstrapAdmin B fault salt now w.store).2, w.issued⟩
  | .register fault salt now body =>
    ⟨(register B J secret fault salt now body w.store).2,
      w.issued ++ (register B J secret fault salt now body w.store).1.tokens⟩
  | .login fault now body =>
    match login B J secret fault now body w.store with
    | some r => ⟨w.store, w.issued ++ r.tokens⟩
    | none => w
  | .submit token clock fault now body file =>
    if token ∈ w.issued then
      match J.verify token secret clock with
      | some user => ⟨(submitReport fault now user body file w.store).2, w.issued⟩
      | none => w
    else w

/-- The world after a sequence of events, starting from a fresh database. -/
def run (B : Bcrypt) (J : Jwt) (secret : String) (actions : List Action) : World :=
  actions.foldl (step B J secret) ⟨emptyStore, []⟩

/-- The facts every reachable world satisfies: user ids are pairwise distinct; every
issued token is a signed payload whose id is the id of a row of `users`; every report
has a non-NULL `user_id` that is the id of a row of `users`. -/
def WorldInv (J : Jwt) (secret : String) (w : World) : Prop :=
  (w.store.users.map (fun u => u.id)).Nodup ∧
  (∀ tok ∈ w.issued, ∃ c, tok = J.sign c secret ∧ ∃ u ∈ w.store.users, u.id = c.id) ∧
  (∀ r ∈ w.store.reports, ∃ n, r.user_id = some n ∧ ∃ u ∈ w.store.users, u.id = n)

/-! ## Reference instances of the libraries

Small executable stand-ins for `bcryptjs` and `jsonwebtoken`, used to show that the
library laws assumed by the theorems can be met and to evaluate the handlers on
concrete requests. -/

/-- A salted digest is the salt followed by the plaintext; it verifies when it ends
with the plaintext. -/
def refBcrypt : Bcrypt :=
  ⟨fun p _ salt => String.mk (salt.data ++ p.data),
   fun p h => h.data.drop (h.data.length - p.data.length) == p.data⟩

/-- A number as a length-marked decimal numeral. -/
def encNat (n : Nat) : List Char :=
  List.replicate (Nat.digits 10 n).length 'x' ++
    'z' :: (Nat.digits 10 n).map (fun d => Char.ofNat (d + 48))

/-- Count the leading length marks. -/
def readMarks : List Char → Nat × List Char
  | [] => (0, [])
  | c :: cs => if c = 'x' then ((readMarks cs).1 + 1, (readMarks cs).2) else (0, c :: cs)

/-- Read back a number written by `encNat`. -/
def decNat (cs : List Char) : Option (Nat × List Char) :=
  match readMarks cs with
  | (_, []) => none
  | (k, c :: rest) =>
    if c = 'z' ∧ k ≤ rest.length then
      some (Nat.ofDigits 10 ((rest.take k).map (fun d => d.toNat - 48)), rest.drop k)
    else none

/-- A string as its length followed by its characters. -/
def encStr (s : String) : List Char :=
  encNat s.data.length ++ s.data

/-- Read back a string written by `encStr`. -/
def decStr (cs : List Char) : Option (String × List Char) :=
  match decNat cs with
  | none => none
  | some (n, rest) => if n ≤ rest.length then some (String.mk (rest.take n), rest.drop n) else none

/-- A body field as a tag followed by its text. -/
def encJs : JsVal → List Char
  | .undefined => ['u']
  | .null => ['n']
  | .str s => 's' :: encStr s

/-- Read back a field written by `encJs`. -/
def decJs : List Char → Option (JsVal × List Char)
  | [] => none
  | c :: rest =>
    if c = 'u' then some (.undefined, rest)
    else if c = 'n' then some (.null, rest)
    else if c = 's' then
      match decStr rest with
      | none => none
      | some (s, rest1) => some (.str s, rest1)
    else none

/-- A payload as the sequence of its five fields. -/
def encClaims (c : Claims) : List Char :=
  encNat c.id ++ (encJs c.email ++ (encJs c.role ++ (encNat c.iat ++ encNat c.exp)))

/-- Read back a payload written by `encClaims`. -/
def decClaims (cs : List Char) : Option (Claims × List Char) :=
  match decNat cs with
  | none => none
  | some (id, r1) =>
    match decJs r1 with
    | none => none
    | some (email, r2) =>
      match decJs r2 with
      | none => none
      | some (role, r3) =>
        match decNat r3 with
        | none => none
        | some (iat, r4) =>
          match decNat r4 with
          | none => none
          | some (exp, r5) => some (⟨id, email, role, iat, exp⟩, r5)

/-- A token is the encoded payload followed by the secret; it verifies when it
decodes, the secret matches and the clock is before `exp`. -/
def refJwt : Jwt :=
  ⟨fun c secret => String.mk (encClaims c ++ secret.data),
   fun token secret clock =>
    match decClaims token.data with
    | none => none
    | some (c, rest) => if rest = secret.data ∧ clock < c.exp then some c else none⟩

end CityFix
namespace CityFix

/-! ## The reference libraries satisfy the library laws -/

theorem refBcrypt_correct : BcryptCorrect refBcrypt := by
  intro p salt rounds
  simp [refBcrypt]

theorem readMarks_marks (k : Nat) (rest : List Char) :
    readMarks (List.replicate k 'x' ++ 'z' :: rest) = (k, 'z' :: rest) := by
  induction k with
  | zero => simp [readMarks]
  | succ k ih => simp [List.replicate_succ, readMarks, ih]

theorem digitChar_toNat (d : Nat) (h : d < 10) : (Char.ofNat (d + 48)).toNat - 48 = d := by
  interval_cases d <;> rfl

theorem decNat_encNat (n : Nat) (rest : List Char) :
    decNat (encNat n ++ rest) = some (n, rest) := by
  have hmap : ((Nat.digits 10 n).map (fun d => Char.ofNat (d + 48))).map
      (fun d => d.toNat - 48) = Nat.digits 10 n := by
    rw [List.map_map]
    conv_rhs => rw [← List.map_id (Nat.digits 10 n)]
    apply List.map_congr_left
    intro d hd
    exact digitChar_toNat d (Nat.digits_lt_base (by norm_num) hd)
  have hlen : (Nat.digits 10 n).length =
      ((Nat.digits 10 n).map (fun d => Char.ofNat (d + 48))).length := by simp
  unfold decNat encNat
  rw [List.append_assoc, List.cons_append, readMarks_marks]
  simp only [true_and]
  rw [if_pos (by simp)]
  rw [hlen, List.take_left, List.drop_left, hmap, Nat.ofDigits_digits]

theorem decStr_encStr (s : String) (rest : List Char) :
    decStr (encStr s ++ rest) = some (s, rest) := by
  unfold decStr encStr
  rw [List.append_assoc, decNat_encNat]
  simp

theorem decJs_encJs (v : JsVal) (rest : List Char) :
    decJs (encJs v ++ rest) = some (v, rest) := by
  cases v with
  | undefined => simp [encJs, decJs]
  | null => simp [encJs, decJs]
  | str s => simp [encJs, decJs, decStr_encStr]

theorem decClaims_encClaims (c : Claims) (rest : List Char) :
    decClaims (encClaims c ++ rest) = some (c, rest) := by
  unfold decClaims encClaims
  simp only [List.append_assoc, decNat_encNat, decJs_encJs]

theorem refJwt_complete (secret : String) : JwtComplete refJwt secret := by
  intro c t ht
  simp [refJwt, decClaims_encClaims, ht]

theorem refJwt_sound (secret : String) : JwtSound refJwt secret := by
  intro c d t h
  simp [refJwt, decClaims_encClaims] at h
  exact h.2.symm

end CityFix
namespace CityFix

/-! ## Lookup and constraint lemmas -/

theorem find_email_of_unique (users : List UserRow) (e : String) (u : UserRow)
    (hu : u ∈ users) (he : u.email = e) (hnd : (users.map (fun v => v.email)).Nodup) :
    users.find? (fun v => v.email = e) = some u := by
  induction users with
  | nil => simp at hu
  | cons v vs ih =>
    rw [List.map_cons, List.nodup_cons] at hnd
    by_cases hv : v.email = e
    · rcases List.mem_cons.mp hu with h | h
      · simp [List.find?, hv, h]
      · exfalso
        apply hnd.1
        rw [hv, ← he]
        exact List.mem_map_of_mem _ h
    · rcases List.mem_cons.mp hu with h | h
      · exact absurd (h ▸ he) hv
      · simp [List.find?, hv, ih h hnd.2]

theorem find_email_none (users : List UserRow) (e : String)
    (h : ¬ ∃ u ∈ users, u.email = e) : users.find? (fun v => v.email = e) = none := by
  rw [List.find?_eq_none]
  intro v hv hve
  exact h ⟨v, hv, by simpa using hve⟩

/-! ## C1: login -/

/-- Login on a string email and password.  With unique emails and a lookup that does
not fault, the answer is 200 with a token and a public user exactly when some row has
that email and its digest verifies against the password; the token and the public user
are then built from that row; in every other case the answer is the single response
401 `Invalid credentials`, the same for an unknown email and for a wrong password. -/
theorem login_iff_valid_credentials (B : Bcrypt) (J : Jwt) (secret : String) (now : Nat)
    (S : Store) (email password : String) (huniq : UniqueEmails S) :
    ((∃ token user, login B J secret none now ⟨.str email, .str password⟩ S
          = some ⟨200, .auth token user⟩) ↔
      ∃ u ∈ S.users, u.email = email ∧ B.compare password u.password = true) ∧
    (∀ u ∈ S.users, u.email = email → B.compare password u.password = true →
      login B J secret none now ⟨.str email, .str password⟩ S
        = some ⟨200, .auth (jwtSign J secret now u.id (.str u.email) (sqlToJs u.role))
            ⟨u.id, .str u.name, .str u.email, sqlToJs u.role⟩⟩) ∧
    ((¬ ∃ u ∈ S.users, u.email = email ∧ B.compare password u.password = true) →
      login B J secret none now ⟨.str email, .str password⟩ S = some invalidCredentials) := by
  have hsucc : ∀ u ∈ S.users, u.email = email → B.compare password u.password = true →
      login B J secret none now ⟨.str email, .str password⟩ S
        = some ⟨200, .auth (jwtSign J secret now u.id (.str u.email) (sqlToJs u.role))
            ⟨u.id, .str u.name, .str u.email, sqlToJs u.role⟩⟩ := by
    intro u hu he hc
    simp [login, getUserByEmail, JsVal.toSql, bcryptCompare,
      find_email_of_unique S.users email u hu he huniq, hc]
  have hfail : (¬ ∃ u ∈ S.users, u.email = email ∧ B.compare password u.password = true) →
      login B J secret none now ⟨.str email, .str password⟩ S = some invalidCredentials := by
    intro hno
    by_cases hex : ∃ u ∈ S.users, u.email = email
    · obtain ⟨u, hu, he⟩ := hex
      have hc : B.compare password u.password = false := by
        cases hcmp : B.compare password u.password
        · rfl
        · exact absurd ⟨u, hu, he, hcmp⟩ hno
      simp [login, getUserByEmail, JsVal.toSql, bcryptCompare,
        find_email_of_unique S.users email u hu he huniq, hc]
    · simp [login, getUserByEmail, JsVal.toSql, find_email_none S.users email hex]
  refine ⟨⟨?_, ?_⟩, hsucc, hfail⟩
  · rintro ⟨token, user, h⟩
    by_contra hno
    rw [hfail hno] at h
    simp [invalidCredentials] at h
  · rintro ⟨u, hu, he, hc⟩
    exact ⟨_, _, hsucc u hu he hc⟩

/-- Ann's row, with the digest `refBcrypt` gives her password under salt `s`. -/
theorem login_iff_valid_credentials_example :
    UniqueEmails ⟨[⟨1, "Ann", "ann@x.com", "ssecret1", some "citizen", none, none, none, 0⟩],
      1, [], 0⟩ ∧
    login refBcrypt refJwt "k" none 5 ⟨.str "ann@x.com", .str "secret1"⟩
      ⟨[⟨1, "Ann", "ann@x.com", "ssecret1", some "citizen", none, none, none, 0⟩], 1, [], 0⟩
      = some ⟨200, .auth (jwtSign refJwt "k" 5 1 (.str "ann@x.com") (.str "citizen"))
          ⟨1, .str "Ann", .str "ann@x.com", .str "citizen"⟩⟩ :=
  ⟨by simp [UniqueEmails],
   (login_iff_valid_credentials refBcrypt refJwt "k" 5
      ⟨[⟨1, "Ann", "ann@x.com", "ssecret1", some "citizen", none, none, none, 0⟩], 1, [], 0⟩
      "ann@x.com" "secret1" (by simp [UniqueEmails])).2.1
      ⟨1, "Ann", "ann@x.com", "ssecret1", some "citizen", none, none, none, 0⟩
      (by simp) rfl (by decide)⟩

/-- C1 fails on the code: with a row for `ann@x.com` in the store, a login request for
that email whose password is absent, or null, is never answered (the promise of
`bcrypt.compare` rejects inside the `db.get` callback and nothing catches it), whereas
the same request for an unknown email is answered 401 `Invalid credentials`.  So the
two are told apart, and the first is not answered with `Invalid credentials`. -/
theorem C1_missing_password_unanswered :
    login refBcrypt refJwt "k" none 5 ⟨.str "ann@x.com", .undefined⟩
        ⟨[⟨1, "Ann", "ann@x.com", "ssecret1", some "citizen", none, none, none, 0⟩], 1, [], 0⟩
      = none ∧
    login refBcrypt refJwt "k" none 5 ⟨.str "ann@x.com", .null⟩
        ⟨[⟨1, "Ann", "ann@x.com", "ssecret1", some "citizen", none, none, none, 0⟩], 1, [], 0⟩
      = none ∧
    login refBcrypt refJwt "k" none 5 ⟨.str "bob@x.com", .undefined⟩
        ⟨[⟨1, "Ann", "ann@x.com", "ssecret1", some "citizen", none, none, none, 0⟩], 1, [], 0⟩
      = some invalidCredentials := by
  decide

/-! ## C4: the access gate -/

theorem splitOnChar_no_sep (sep : Char) (l : List Char) (h : sep ∉ l) :
    splitOnChar sep l = [l] := by
  induction l with
  | nil => rfl
  | cons c cs ih =>
    have hc : c ≠ sep := fun e => h (e ▸ List.mem_cons_self _ _)
    have hcs : sep ∉ cs := fun m => h (List.mem_cons_of_mem _ m)
    simp [splitOnChar, hc, ih hcs]

theorem splitOnChar_append (sep : Char) (a b : List Char) (h : sep ∉ a) :
    splitOnChar sep (a ++ sep :: b) = a :: splitOnChar sep b := by
  induction a with
  | nil => simp [splitOnChar]
  | cons c cs ih =>
    have hc : c ≠ sep := fun e => h (e ▸ List.mem_cons_self _ _)
    have hcs : sep ∉ cs := fun m => h (List.mem_cons_of_mem _ m)
    simp [splitOnChar, hc, ih hcs]

theorem first_sep_decomp (sep : Char) (l : List Char) :
    sep ∉ l ∨ ∃ a b, l = a ++ sep :: b ∧ sep ∉ a := by
  induction l with
  | nil => left; simp
  | cons c cs ih =>
    by_cases hc : c = sep
    · right; exact ⟨[], cs, by simp [hc], by simp⟩
    · rcases ih with h | ⟨a, b, hab, ha⟩
      · left
        intro hm
        rcases List.mem_cons.mp hm with h1 | h1
        · exact hc h1.symm
        · exact h h1
      · right
        refine ⟨c :: a, b, by simp [hab], ?_⟩
        intro hm
        rcases List.mem_cons.mp hm with h1 | h1
        · exact hc h1.symm
        · exact ha h1

theorem string_ne_empty_of_data (h : String) (hd : h.data ≠ []) : h ≠ "" := by
  intro e
  apply hd
  rw [e]

theorem mk_ne_empty (t : List Char) (ht : t ≠ []) : String.mk t ≠ "" := by
  intro e
  apply ht
  have := congrArg String.data e
  simpa using this

/-- The gate extracts exactly the token the header carries. -/
theorem extractToken_of_carries (h : String) (t : List Char) (hc : HeaderCarries h t) :
    extractToken (some h) = some (String.mk t) := by
  obtain ⟨scheme, rest, hs, ht, hne, hd⟩ := hc
  have hh : h ≠ "" := by
    apply string_ne_empty_of_data
    rcases hd with hd | hd <;> rw [hd] <;> simp
  have hsplit : (splitOnChar spaceChar h.data)[1]? = some t := by
    rcases hd with hd | hd
    · rw [hd, splitOnChar_append _ _ _ hs, splitOnChar_no_sep _ _ ht]; simp
    · rw [hd, splitOnChar_append _ _ _ hs, splitOnChar_append _ _ _ ht]; simp
  simp [extractToken, headerToken, hh, hsplit, mk_ne_empty t hne]

/-- Whatever the gate extracts is a token the header carries. -/
theorem carries_of_extractToken (h tok : String) (he : extractToken (some h) = some tok) :
    HeaderCarries h tok.data := by
  unfold extractToken headerToken at he
  by_cases hh : h = ""
  · simp [hh] at he
  · simp only [hh, if_false, List.get?_eq_getElem?] at he
    cases hg : (splitOnChar spaceChar h.data)[1]? with
    | none => simp [hg] at he
    | some w =>
      simp only [hg, Option.map_some'] at he
      by_cases hw : String.mk w = ""
      · simp [hw] at he
      · simp only [hw, if_false, Option.some.injEq] at he
        subst he
        have hwne : w ≠ [] := by
          intro e; apply hw; rw [e]
        rcases first_sep_decomp spaceChar h.data with hno | ⟨a, b, hab, ha⟩
        · rw [splitOnChar_no_sep _ _ hno] at hg
          simp at hg
        · rw [hab, splitOnChar_append _ _ _ ha] at hg
          rcases first_sep_decomp spaceChar b with hnob | ⟨t, rest, htb, ht⟩
          · rw [splitOnChar_no_sep _ _ hnob] at hg
            simp at hg
            subst hg
            exact ⟨a, [], ha, hnob, hwne, Or.inl hab⟩
          · rw [htb, splitOnChar_append _ _ _ ht] at hg
            simp at hg
            subst hg
            exact ⟨a, rest, ha, ht, hwne, Or.inr (by rw [hab, htb])⟩

theorem extractToken_none_of_no_carry (h : String) (hno : ∀ t, ¬ HeaderCarries h t) :
    extractToken (some h) = none := by
  cases he : extractToken (some h) with
  | none => rfl
  | some tok => exact absurd (carries_of_extractToken h tok he) (hno _)

/-- The gate in terms of the token it extracts. -/
theorem authenticateToken_of_extract (J : Jwt) (secret : String) (clock : Nat)
    (authHeader : Option String) :
    authenticateToken J secret clock authHeader =
      match extractToken authHeader with
      | none => .respond tokenRequired
      | some t =>
        match J.verify t secret clock with
        | none => .respond invalidToken
        | some user => .next user := by
  unfold extractToken authenticateToken
  cases headerToken authHeader with
  | none => rfl
  | some t => by_cases ht : t = "" <;> simp [ht]

/-- C4. The gate on every Authorization header.  With no header, or a header that
carries no token, it answers 401 `Token required`.  With a header that carries the
token `t`: if verification of `t` fails it answers 403 `Invalid token`; if it succeeds
it calls the handler with the decoded identity.  A header carries at most one token and
every header either carries one or does not, so the three cases are exhaustive and
exclude one another.  Whenever the gate answers itself the handler is not called: the
route returns that answer and the store is untouched.  Whenever it passes an identity
on, the handler is called once, with that identity. -/
theorem C4_gate_three_cases (J : Jwt) (secret : String) (clock : Nat) :
    authenticateToken J secret clock none = .respond tokenRequired ∧
    (∀ h, (∀ t, ¬ HeaderCarries h t) →
      authenticateToken J secret clock (some h) = .respond tokenRequired) ∧
    (∀ h t, HeaderCarries h t → J.verify (String.mk t) secret clock = none →
      authenticateToken J secret clock (some h) = .respond invalidToken) ∧
    (∀ h t user, HeaderCarries h t → J.verify (String.mk t) secret clock = some user →
      authenticateToken J secret clock (some h) = .next user) ∧
    (∀ h t u, HeaderCarries h t → HeaderCarries h u → t = u) ∧
    (∀ authHeader : Option String, authHeader = none ∨
      (∃ h, authHeader = some h ∧ ∀ t, ¬ HeaderCarries h t) ∨
      (∃ h t, authHeader = some h ∧ HeaderCarries h t)) ∧
    tokenRequired ≠ invalidToken ∧
    (∀ authHeader r, authenticateToken J secret clock authHeader = .respond r →
      (authenticateToken J secret clock authHeader).nextCalls = 0 ∧
      ∀ fault body file S,
        postReports J secret fault clock authHeader body file S = (r, S)) ∧
    (∀ authHeader user, authenticateToken J secret clock authHeader = .next user →
      (authenticateToken J secret clock authHeader).nextCalls = 1 ∧
      ∀ fault body file S,
        postReports J secret fault clock authHeader body file S
          = submitReport fault clock user body file S) := by
  refine ⟨rfl, ?_, ?_, ?_, ?_, ?_, by decide, ?_, ?_⟩
  · intro h hno
    rw [authenticateToken_of_extract, extractToken_none_of_no_carry h hno]
  · intro h t hc hv
    rw [authenticateToken_of_extract, extractToken_of_carries h t hc]
    simp only [hv]
  · intro h t user hc hv
    rw [authenticateToken_of_extract, extractToken_of_carries h t hc]
    simp only [hv]
  · intro h t u ht hu
    have h1 := extractToken_of_carries h t ht
    rw [extractToken_of_carries h u hu] at h1
    have h2 := congrArg String.data (Option.some.inj h1)
    exact h2.symm
  · intro authHeader
    cases authHeader with
    | none => exact Or.inl rfl
    | some h =>
      right
      by_cases hex : ∃ t, HeaderCarries h t
      · obtain ⟨t, ht⟩ := hex
        exact Or.inr ⟨h, t, rfl, ht⟩
      · exact Or.inl ⟨h, rfl, fun t ht => hex ⟨t, ht⟩⟩
  · intro authHeader r hr
    refine ⟨by rw [hr]; rfl, ?_⟩
    intro fault body file S
    simp only [postReports, hr]
  · intro authHeader user hu
    refine ⟨by rw [hu]; rfl, ?_⟩
    intro fault body file S
    simp only [postReports, hu]

/-- The header `Bearer abc`, with a library that accepts the token `abc` only. -/
theorem C4_gate_witness :
    HeaderCarries "Bearer abc" "abc".data ∧
    authenticateToken
        ⟨fun _ _ => "abc",
         fun t _ _ => if t = "abc" then some ⟨1, .str "ann@x.com", .str "citizen", 0, 86400⟩
           else none⟩
        "k" 7 (some "Bearer abc")
      = .next ⟨1, .str "ann@x.com", .str "citizen", 0, 86400⟩ ∧
    authenticateToken
        ⟨fun _ _ => "abc",
         fun t _ _ => if t = "abc" then some ⟨1, .str "ann@x.com", .str "citizen", 0, 86400⟩
           else none⟩
        "k" 7 (some "Bearer abd")
      = .respond invalidToken ∧
    authenticateToken
        ⟨fun _ _ => "abc",
         fun t _ _ => if t = "abc" then some ⟨1, .str "ann@x.com", .str "citizen", 0, 86400⟩
           else none⟩
        "k" 7 (some "abc")
      = .respond tokenRequired :=
  ⟨⟨"Bearer".data, [], by decide, by decide, by decide, Or.inl (by decide)⟩,
   (C4_gate_three_cases _ "k" 7).2.2.2.1 "Bearer abc" "abc".data _
     ⟨"Bearer".data, [], by decide, by decide, by decide, Or.inl (by decide)⟩ (by decide),
   (C4_gate_three_cases _ "k" 7).2.2.1 "Bearer abd" "abd".data
     ⟨"Bearer".data, [], by decide, by decide, by decide, Or.inl (by decide)⟩ (by decide),
   by decide⟩

end CityFix
namespace CityFix

/-! ## Registration -/

theorem any_email_of_mem (users : List UserRow) (e : String)
    (h : ∃ u ∈ users, u.email = e) : users.any (fun u => u.email = e) = true := by
  obtain ⟨u, hu, he⟩ := h
  rw [List.any_eq_true]
  exact ⟨u, hu, by simpa using he⟩

theorem any_email_of_not_mem (users : List UserRow) (e : String)
    (h : ¬ ∃ u ∈ users, u.email = e) : users.any (fun u => u.email = e) = false := by
  rw [Bool.eq_false_iff]
  intro hany
  rw [List.any_eq_true] at hany
  obtain ⟨u, hu, he⟩ := hany
  exact h ⟨u, hu, by simpa using he⟩

theorem unique_includes :
    jsIncludes "SQLITE_CONSTRAINT: UNIQUE constraint failed: users.email" "UNIQUE" = true := by
  decide

theorem notnull_name_excludes :
    jsIncludes "SQLITE_CONSTRAINT: NOT NULL constraint failed: users.name" "UNIQUE" = false := by
  decide

theorem notnull_email_excludes :
    jsIncludes "SQLITE_CONSTRAINT: NOT NULL constraint failed: users.email" "UNIQUE" = false := by
  decide

/-- A failed or duplicate insert writes nothing: with the email already present the
statement leaves the store as it was, whatever the other parameters are. -/
theorem insertUser_duplicate_store (fault : Option String) (now : Nat)
    (name password role : Option String) (e : String) (S : Store)
    (hdup : ∃ u ∈ S.users, u.email = e) :
    (insertUser fault now name (some e) password role S).2 = S := by
  unfold insertUser
  cases fault with
  | some msg => rfl
  | none =>
    cases name with
    | none => rfl
    | some n =>
      cases password with
      | none => rfl
      | some p => simp [any_email_of_mem S.users e hdup]

/-- The store a registration leaves behind is the one its INSERT leaves behind, or the
original one when hashing the password fails. -/
theorem register_store (B : Bcrypt) (J : Jwt) (secret : String) (fault : Option String)
    (salt : String) (now : Nat) (body : RegisterBody) (S : Store) :
    (register B J secret fault salt now body S).2 =
      match bcryptHash B body.password 10 salt with
      | .error _ => S
      | .ok hashed =>
        (insertUser fault now body.name.toSql body.email.toSql (some hashed)
          (defaultRole body.role).toSql S).2 := by
  unfold register
  cases bcryptHash B body.password 10 salt with
  | error msg => rfl
  | ok hashed =>
    dsimp only
    generalize insertUser fault now body.name.toSql body.email.toSql (some hashed)
      (defaultRole body.role).toSql S = r
    rcases r with ⟨res, S1⟩
    cases res with
    | error msg => dsimp only; split <;> rfl
    | ok lastID => rfl

theorem register_new (B : Bcrypt) (J : Jwt) (secret : String) (S : Store) (salt : String)
    (now : Nat) (name email password : String) (role : JsVal)
    (hnew : ¬ ∃ u ∈ S.users, u.email = email) :
    register B J secret none salt now ⟨.str name, .str email, .str password, role⟩ S =
      (⟨200, .auth
          (jwtSign J secret now (nextRowid S.userSeq (S.users.map (fun u => u.id)))
            (.str email) (defaultRole role))
          ⟨nextRowid S.userSeq (S.users.map (fun u => u.id)), .str name, .str email,
            defaultRole role⟩⟩,
        { S with
          users := S.users ++ [⟨nextRowid S.userSeq (S.users.map (fun u => u.id)), name, email,
            B.hash password 10 salt, (defaultRole role).toSql, none, none, none, now⟩],
          userSeq := nextRowid S.userSeq (S.users.map (fun u => u.id)) }) := by
  simp [register, bcryptHash, insertUser, JsVal.toSql, any_email_of_not_mem S.users email hnew]

theorem register_duplicate (B : Bcrypt) (J : Jwt) (secret : String) (S : Store) (salt : String)
    (now : Nat) (name email password : String) (role : JsVal)
    (hdup : ∃ u ∈ S.users, u.email = email) :
    register B J secret none salt now ⟨.str name, .str email, .str password, role⟩ S =
      (duplicateEmail, S) := by
  simp [register, bcryptHash, insertUser, JsVal.toSql, any_email_of_mem S.users email hdup,
    unique_includes]

/-- C2, as stated, fails: with `ann@x.com` taken, a registration for that email that
has no name is answered 500 `Registration failed` (the NOT NULL check comes before the
UNIQUE check), and one that has no password is answered 500 `Server error`; neither is
400 `Email already exists`. -/
theorem C2_taken_email_not_duplicate :
    register refBcrypt refJwt "k" none "t" 9
        ⟨.undefined, .str "ann@x.com", .str "pw", .undefined⟩
        ⟨[⟨1, "Ann", "ann@x.com", "ssecret1", some "citizen", none, none, none, 0⟩], 1, [], 0⟩
      = (registrationFailed,
          ⟨[⟨1, "Ann", "ann@x.com", "ssecret1", some "citizen", none, none, none, 0⟩], 1, [], 0⟩) ∧
    register refBcrypt refJwt "k" none "t" 9
        ⟨.str "Ann", .str "ann@x.com", .undefined, .undefined⟩
        ⟨[⟨1, "Ann", "ann@x.com", "ssecret1", some "citizen", none, none, none, 0⟩], 1, [], 0⟩
      = (serverError,
          ⟨[⟨1, "Ann", "ann@x.com", "ssecret1", some "citizen", none, none, none, 0⟩], 1, [], 0⟩) ∧
    registrationFailed ≠ duplicateEmail ∧ serverError ≠ duplicateEmail := by
  decide

/-- C2, amended. Registration with an email that already belongs to a row: the store
after the call is the store before it, whatever else the request holds and whether or
not the storage layer faults; when the name and the password are strings and the storage
layer does not fault, the answer is 400 `Email already exists`.  Hence registering a new
email twice in succession, with string names and passwords, no storage fault and a
signing key the token library works with, succeeds the first time (200 with a token
that verifies) and fails with 400 `Email already exists` the second time, the second
call leaving the store as the first one left it. -/
theorem C2_register_duplicate_email (B : Bcrypt) (J : Jwt) (secret : String) :
    (∀ (S : Store) (fault : Option String) (salt : String) (now : Nat) (name password role : JsVal)
        (email : String), (∃ u ∈ S.users, u.email = email) →
      (register B J secret fault salt now ⟨name, .str email, password, role⟩ S).2 = S) ∧
    (∀ (S : Store) (salt : String) (now : Nat) (name email password : String) (role : JsVal),
      (∃ u ∈ S.users, u.email = email) →
      register B J secret none salt now ⟨.str name, .str email, .str password, role⟩ S
        = (duplicateEmail, S)) ∧
    (∀ (S : Store) (salt1 salt2 : String) (now1 now2 : Nat) (name1 name2 email pw1 pw2 : String)
        (role1 role2 : JsVal), (¬ ∃ u ∈ S.users, u.email = email) → JwtComplete J secret →
      (∃ token user,
        (register B J secret none salt1 now1 ⟨.str name1, .str email, .str pw1, role1⟩ S).1
          = ⟨200, .auth token user⟩ ∧
        J.verify token secret now1 ≠ none) ∧
      register B J secret none salt2 now2 ⟨.str name2, .str email, .str pw2, role2⟩
          (register B J secret none salt1 now1 ⟨.str name1, .str email, .str pw1, role1⟩ S).2
        = (duplicateEmail,
          (register B J secret none salt1 now1 ⟨.str name1, .str email, .str pw1, role1⟩ S).2)) := by
  refine ⟨?_, ?_, ?_⟩
  · intro S fault salt now name password role email hdup
    rw [register_store]
    cases bcryptHash B password 10 salt with
    | error msg => rfl
    | ok hashed =>
      exact insertUser_duplicate_store fault now name.toSql (some hashed)
        (defaultRole role).toSql email S hdup
  · intro S salt now name email password role hdup
    exact register_duplicate B J secret S salt now name email password role hdup
  · intro S salt1 salt2 now1 now2 name1 name2 email pw1 pw2 role1 role2 hnew hjwt
    rw [register_new B J secret S salt1 now1 name1 email pw1 role1 hnew]
    refine ⟨⟨_, _, rfl, ?_⟩, ?_⟩
    · rw [jwtSign, hjwt _ now1 (by dsimp only; omega)]
      exact Option.noConfusion
    · apply register_duplicate
      exact ⟨_, List.mem_append_right _ (List.mem_singleton_self _), rfl⟩

/-- Ann registers twice on a fresh database. -/
theorem C2_register_twice_witness :
    (¬ ∃ u ∈ emptyStore.users, u.email = "ann@x.com") ∧ JwtComplete refJwt "k" ∧
    register refBcrypt refJwt "k" none "t" 9 ⟨.str "Ann", .str "ann@x.com", .str "other", .undefined⟩
        (register refBcrypt refJwt "k" none "s" 5
          ⟨.str "Ann", .str "ann@x.com", .str "secret1", .undefined⟩ emptyStore).2
      = (duplicateEmail,
        (register refBcrypt refJwt "k" none "s" 5
          ⟨.str "Ann", .str "ann@x.com", .str "secret1", .undefined⟩ emptyStore).2) :=
  ⟨by simp [emptyStore], refJwt_complete "k",
   ((C2_register_duplicate_email refBcrypt refJwt "k").2.2 emptyStore "s" "t" 5 9 "Ann" "Ann"
      "ann@x.com" "secret1" "other" .undefined .undefined (by simp [emptyStore])
      (refJwt_complete "k")).2⟩

/-- C3. A registration with string name, email and password whose email is not yet in
the store, with no storage fault, answers 200 with the user `id, name, email, role`,
where `id` is the id of the one row appended to `users` and `role` is the supplied role,
or `citizen` when none is supplied; the public user has no password field; and at every
clock before expiry the returned token verifies to an identity with that id, email and
role. -/
theorem C3_register_success (B : Bcrypt) (J : Jwt) (secret : String) (S : Store)
    (salt : String) (now : Nat) (name email password : String) (role : JsVal)
    (hnew : ¬ ∃ u ∈ S.users, u.email = email) (hjwt : JwtComplete J secret) :
    ∃ (id : Nat) (token : String) (row : UserRow),
      register B J secret none salt now ⟨.str name, .str email, .str password, role⟩ S
        = (⟨200, .auth token ⟨id, .str name, .str email, defaultRole role⟩⟩,
            { S with users := S.users ++ [row], userSeq := id }) ∧
      row.id = id ∧ row.name = name ∧ row.email = email ∧
      row.password = B.hash password 10 salt ∧
      (role = .undefined → defaultRole role = .str "citizen") ∧
      (role ≠ .undefined → defaultRole role = role) ∧
      ∀ t, t < now + 86400 →
        ∃ c, J.verify token secret t = some c ∧ c.id = id ∧ c.email = .str email ∧
          c.role = defaultRole role := by
  refine ⟨nextRowid S.userSeq (S.users.map (fun u => u.id)), _, _,
    register_new B J secret S salt now name email password role hnew,
    rfl, rfl, rfl, rfl, ?_, ?_, ?_⟩
  · intro h; subst h; rfl
  · intro h; cases role <;> simp_all [defaultRole]
  · intro t ht
    exact ⟨_, hjwt _ t ht, rfl, rfl, rfl⟩

/-- Ann registers on a fresh database, with the reference libraries. -/
theorem C3_register_success_witness :
    (¬ ∃ u ∈ emptyStore.users, u.email = "ann@x.com") ∧ JwtComplete refJwt "k" ∧
    ∃ (id : Nat) (token : String) (row : UserRow),
      register refBcrypt refJwt "k" none "s" 5
          ⟨.str "Ann", .str "ann@x.com", .str "secret1", .undefined⟩ emptyStore
        = (⟨200, .auth token ⟨id, .str "Ann", .str "ann@x.com", defaultRole .undefined⟩⟩,
            { emptyStore with users := emptyStore.users ++ [row], userSeq := id }) ∧
      row.id = id ∧ row.name = "Ann" ∧ row.email = "ann@x.com" ∧
      row.password = refBcrypt.hash "secret1" 10 "s" ∧
      (JsVal.undefined = .undefined → defaultRole .undefined = .str "citizen") ∧
      (JsVal.undefined ≠ .undefined → defaultRole .undefined = .undefined) ∧
      ∀ t, t < 5 + 86400 →
        ∃ c, refJwt.verify token "k" t = some c ∧ c.id = id ∧ c.email = .str "ann@x.com" ∧
          c.role = defaultRole .undefined :=
  ⟨by simp [emptyStore], refJwt_complete "k",
   C3_register_success refBcrypt refJwt "k" emptyStore "s" 5 "Ann" "ann@x.com" "secret1"
     .undefined (by simp [emptyStore]) (refJwt_complete "k")⟩

end CityFix
namespace CityFix

/-! ## Report submission -/

/-- C5. For every store, every identity `user` the gate attached and every submission
whose category is a string (so in particular every non-empty one), with no storage
fault, the handler answers 200 with `reportId` the id of one new row appended to
`reports`; that row has status `submitted`, `user_id` the identity's id, and as photo
the uploaded file's generated name, or NULL when no file was sent; the rows that were
there before, reports and users alike, are untouched.  The route behaves the same
whenever the gate passes `user` on. -/
theorem C5_submit_success (now : Nat) (user : Claims) (body : ReportBody)
    (file : Option String) (S : Store) (category : String)
    (hcat : body.category = .str category) :
    ∃ (id : Nat) (row : ReportRow),
      submitReport none now user body file S
        = (⟨200, .report id⟩, { S with reports := S.reports ++ [row], reportSeq := id }) ∧
      (submitReport none now user body file S).2.users = S.users ∧
      row.id = id ∧ row.status = some "submitted" ∧ row.user_id = some user.id ∧
      row.photo = file ∧ row.category = category ∧
      ∀ (J : Jwt) (secret : String) (authHeader : Option String),
        authenticateToken J secret now authHeader = .next user →
        postReports J secret none now authHeader body file S
          = (⟨200, .report id⟩, { S with reports := S.reports ++ [row], reportSeq := id }) := by
  have h : submitReport none now user body file S
      = (⟨200, .report (nextRowid S.reportSeq (S.reports.map (fun r => r.id)))⟩,
          { S with
            reports := S.reports ++ [⟨nextRowid S.reportSeq (S.reports.map (fun r => r.id)),
              some user.id, category, file, body.location.toSql, body.latitude.toSql,
              body.longitude.toSql, body.description.toSql, some "submitted", none, none,
              now, now⟩],
            reportSeq := nextRowid S.reportSeq (S.reports.map (fun r => r.id)) }) := by
    simp [submitReport, insertReport, hcat, JsVal.toSql]
  refine ⟨_, _, h, ?_, rfl, rfl, rfl, rfl, rfl, ?_⟩
  · rw [h]
  · intro J secret authHeader hgate
    simp only [postReports, hgate]
    exact h

/-- Ann (id 1) reports a pothole with a photo on a database that holds no report yet. -/
theorem C5_submit_success_witness :
    (⟨.str "pothole", .undefined, .undefined, .undefined, .str "deep hole"⟩ : ReportBody).category
      = .str "pothole" ∧
    ∃ (id : Nat) (row : ReportRow),
      submitReport none 7 ⟨1, .str "ann@x.com", .str "citizen", 5, 86405⟩
          ⟨.str "pothole", .undefined, .undefined, .undefined, .str "deep hole"⟩
          (some "7000-42.png") emptyStore
        = (⟨200, .report id⟩,
            { emptyStore with reports := emptyStore.reports ++ [row], reportSeq := id }) ∧
      (submitReport none 7 ⟨1, .str "ann@x.com", .str "citizen", 5, 86405⟩
          ⟨.str "pothole", .undefined, .undefined, .undefined, .str "deep hole"⟩
          (some "7000-42.png") emptyStore).2.users = emptyStore.users ∧
      row.id = id ∧ row.status = some "submitted" ∧
      row.user_id = some (⟨1, .str "ann@x.com", .str "citizen", 5, 86405⟩ : Claims).id ∧
      row.photo = some "7000-42.png" ∧ row.category = "pothole" ∧
      ∀ (J : Jwt) (secret : String) (authHeader : Option String),
        authenticateToken J secret 7 authHeader
          = .next ⟨1, .str "ann@x.com", .str "citizen", 5, 86405⟩ →
        postReports J secret none 7 authHeader
            ⟨.str "pothole", .undefined, .undefined, .undefined, .str "deep hole"⟩
            (some "7000-42.png") emptyStore
          = (⟨200, .report id⟩,
              { emptyStore with reports := emptyStore.reports ++ [row], reportSeq := id }) :=
  ⟨rfl,
   C5_submit_success 7 ⟨1, .str "ann@x.com", .str "citizen", 5, 86405⟩
     ⟨.str "pothole", .undefined, .undefined, .undefined, .str "deep hole"⟩
     (some "7000-42.png") emptyStore "pothole" rfl⟩

/-- C9, as stated, fails: an authenticated submission whose category is the empty
string is answered 200 with `reportId` 1, and the row is inserted. -/
theorem C9_empty_category_accepted :
    submitReport none 7 ⟨1, .str "ann@x.com", .str "citizen", 5, 86405⟩
        ⟨.str "", .undefined, .undefined, .undefined, .undefined⟩ none emptyStore
      = (⟨200, .report 1⟩,
          ⟨[], 0, [⟨1, some 1, "", none, none, none, none, none, some "submitted", none, none,
            7, 7⟩], 1⟩) := by
  decide

/-- C9, amended. For every store and every authenticated submission whose category is
missing (absent or null), the handler answers 500 `Report failed`, returns no
`reportId`, and leaves the store as it was. -/
theorem C9_missing_category_rejected (fault : Option String) (now : Nat) (user : Claims)
    (body : ReportBody) (file : Option String) (S : Store)
    (hcat : body.category = .undefined ∨ body.category = .null) :
    submitReport fault now user body file S = (reportFailed, S) ∧
    (∀ id, (submitReport fault now user body file S).1.body ≠ .report id) ∧
    (submitReport fault now user body file S).2.reports = S.reports := by
  have h : submitReport fault now user body file S = (reportFailed, S) := by
    cases fault with
    | some msg => simp [submitReport, insertReport]
    | none => rcases hcat with h | h <;> simp [submitReport, insertReport, h, JsVal.toSql]
  rw [h]
  exact ⟨rfl, fun id => by simp [reportFailed], rfl⟩

/-- A submission without a category field. -/
theorem C9_missing_category_witness :
    ((⟨.undefined, .undefined, .undefined, .undefined, .str "deep hole"⟩ : ReportBody).category
        = .undefined ∨
      (⟨.undefined, .undefined, .undefined, .undefined, .str "deep hole"⟩ : ReportBody).category
        = .null) ∧
    submitReport none 7 ⟨1, .str "ann@x.com", .str "citizen", 5, 86405⟩
        ⟨.undefined, .undefined, .undefined, .undefined, .str "deep hole"⟩ none emptyStore
      = (reportFailed, emptyStore) :=
  ⟨Or.inl rfl,
   (C9_missing_category_rejected none 7 ⟨1, .str "ann@x.com", .str "citizen", 5, 86405⟩
     ⟨.undefined, .undefined, .undefined, .undefined, .str "deep hole"⟩ none emptyStore
     (Or.inl rfl)).1⟩

/-! ## Blank registration fields -/

/-- C8, as stated, fails: a registration whose name is the empty string is answered
200 with a token, and the row is created. -/
theorem C8_empty_name_accepted :
    register refBcrypt refJwt "k" none "s" 5 ⟨.str "", .str "ann@x.com", .str "secret1", .undefined⟩
        emptyStore
      = (⟨200, .auth (jwtSign refJwt "k" 5 1 (.str "ann@x.com") (.str "citizen"))
            ⟨1, .str "", .str "ann@x.com", .str "citizen"⟩⟩,
          ⟨[⟨1, "", "ann@x.com", "ssecret1", some "citizen", none, none, none, 5⟩], 1, [], 0⟩) := by
  rw [register_new refBcrypt refJwt "k" emptyStore "s" 5 "" "ann@x.com" "secret1" .undefined
    (by simp [emptyStore])]
  rfl

/-- C8, amended. For every store and every registration in which a required field is
missing (absent or null), no user row is created and the answer is a 500: `Server error`
when the password is missing, and, when the password is a string and the storage layer
does not fault, `Registration failed`.  In neither case is it 400 `Email already
exists`. -/
theorem C8_missing_field_rejected (B : Bcrypt) (J : Jwt) (secret : String)
    (fault : Option String) (salt : String) (now : Nat) (body : RegisterBody) (S : Store)
    (hblank : body.name.toSql = none ∨ body.email.toSql = none ∨ body.password.toSql = none) :
    (register B J secret fault salt now body S).2 = S ∧
    (body.password.toSql = none →
      register B J secret fault salt now body S = (serverError, S)) ∧
    (body.password.toSql ≠ none → fault = none →
      register B J secret fault salt now body S = (registrationFailed, S)) ∧
    serverError ≠ duplicateEmail ∧ registrationFailed ≠ duplicateEmail := by
  have hpw : body.password.toSql = none →
      register B J secret fault salt now body S = (serverError, S) := by
    intro h
    cases hp : body.password <;> simp [hp, JsVal.toSql] at h <;>
      simp [register, bcryptHash, hp]
  have hdb : body.password.toSql ≠ none → fault = none →
      register B J secret fault salt now body S = (registrationFailed, S) := by
    intro h hf
    subst hf
    cases hp : body.password with
    | undefined => simp [hp, JsVal.toSql] at h
    | null => simp [hp, JsVal.toSql] at h
    | str p =>
      have hne : body.name.toSql = none ∨ body.email.toSql = none := by
        rcases hblank with h1 | h1 | h1
        · exact Or.inl h1
        · exact Or.inr h1
        · exact absurd h1 h
      cases hn : body.name.toSql with
      | none => simp [register, bcryptHash, hp, insertUser, hn, notnull_name_excludes]
      | some n =>
        have he : body.email.toSql = none := by
          rcases hne with h1 | h1
          · rw [hn] at h1; exact Option.noConfusion h1
          · exact h1
        simp [register, bcryptHash, hp, insertUser, hn, he, notnull_email_excludes]
  refine ⟨?_, hpw, hdb, by decide, by decide⟩
  by_cases hp : body.password.toSql = none
  · rw [hpw hp]
  · cases fault with
    | none => rw [hdb hp rfl]
    | some msg =>
      rw [register_store]
      cases bcryptHash B body.password 10 salt with
      | error m => rfl
      | ok hashed => rfl

/-- A registration without a name, and one without a password. -/
theorem C8_missing_field_witness :
    ((⟨.undefined, .str "ann@x.com", .str "secret1", .undefined⟩ : RegisterBody).name.toSql = none ∨
      (⟨.undefined, .str "ann@x.com", .str "secret1", .undefined⟩ : RegisterBody).email.toSql = none ∨
      (⟨.undefined, .str "ann@x.com", .str "secret1", .undefined⟩ : RegisterBody).password.toSql
        = none) ∧
    register refBcrypt refJwt "k" none "s" 5
        ⟨.undefined, .str "ann@x.com", .str "secret1", .undefined⟩ emptyStore
      = (registrationFailed, emptyStore) :=
  ⟨Or.inl rfl,
   (C8_missing_field_rejected refBcrypt refJwt "k" none "s" 5
     ⟨.undefined, .str "ann@x.com", .str "secret1", .undefined⟩ emptyStore (Or.inl rfl)).2.2.1
     (by simp [JsVal.toSql]) rfl⟩

end CityFix
namespace CityFix

/-! ## Bootstrap admin -/

theorem filter_email_singleton (users : List UserRow) (e : String)
    (hnd : (users.map (fun v => v.email)).Nodup) (hex : ∃ u ∈ users, u.email = e) :
    ∃ u0, users.filter (fun v => v.email = e) = [u0] ∧ u0.email = e := by
  induction users with
  | nil => obtain ⟨u, hu, _⟩ := hex; simp at hu
  | cons v vs ih =>
    rw [List.map_cons, List.nodup_cons] at hnd
    by_cases hv : v.email = e
    · refine ⟨v, ?_, hv⟩
      have hnone : vs.filter (fun w => w.email = e) = [] := by
        rw [List.filter_eq_nil_iff]
        intro w hw hwe
        apply hnd.1
        have hwe2 : w.email = e := by simpa using hwe
        rw [hv, ← hwe2]
        exact List.mem_map_of_mem _ hw
      simp [List.filter, hv, hnone]
    · obtain ⟨u, hu, he⟩ := hex
      rcases List.mem_cons.mp hu with h | h
      · exact absurd (h ▸ he) hv
      · obtain ⟨u0, h0, h0e⟩ := ih hnd.2 ⟨u, h, he⟩
        exact ⟨u0, by simp [List.filter, hv, h0], h0e⟩

/-- What one fault-free run of the startup routine does to the `users` table: the
emails stay unique, exactly one row has the admin email and it carries the fresh
digest, the other rows are as before, and `reports` is not touched. -/
theorem bootstrapAdmin_effect (B : Bcrypt) (salt : String) (now : Nat) (S : Store)
    (huniq : UniqueEmails S) :
    UniqueEmails (bootstrapAdmin B none salt now S).2 ∧
    (∃ u, (bootstrapAdmin B none salt now S).2.users.filter (fun v => v.email = adminEmail) = [u] ∧
      u.password = B.hash adminPlaintext 10 salt) ∧
    (bootstrapAdmin B none salt now S).2.users.filter (fun v => v.email ≠ adminEmail)
      = S.users.filter (fun v => v.email ≠ adminEmail) ∧
    (bootstrapAdmin B none salt now S).2.reports = S.reports := by
  unfold UniqueEmails at *
  by_cases hex : ∃ u ∈ S.users, u.email = adminEmail
  · have hany := any_email_of_mem S.users adminEmail hex
    obtain ⟨u0, h0, h0e⟩ := filter_email_singleton S.users adminEmail huniq hex
    have hmapemail : (S.users.map (fun u =>
        if u.email = adminEmail then { u with password := B.hash adminPlaintext 10 salt } else u)).map
          (fun v => v.email) = S.users.map (fun v => v.email) := by
      rw [List.map_map]
      apply List.map_congr_left
      intro a _
      by_cases ha : a.email = adminEmail <;> simp [ha]
    have hfilt : ∀ (p : String → Bool), (S.users.map (fun u =>
        if u.email = adminEmail then { u with password := B.hash adminPlaintext 10 salt } else u)).filter
          (fun v => p v.email) = (S.users.filter (fun v => p v.email)).map (fun u =>
        if u.email = adminEmail then { u with password := B.hash adminPlaintext 10 salt } else u) := by
      intro p
      rw [List.filter_map]
      congr 1
      apply List.filter_congr
      intro a _
      by_cases ha : a.email = adminEmail <;> simp [ha]
    have hb : bootstrapAdmin B none salt now S = (.ensured, { S with
        users := S.users.map (fun u =>
          if u.email = adminEmail then { u with password := B.hash adminPlaintext 10 salt } else u),
        userSeq := nextRowid S.userSeq (S.users.map (fun u => u.id)) }) := by
      simp [bootstrapAdmin, upsertAdmin, hany]
    rw [hb]
    refine ⟨by rw [hmapemail]; exact huniq, ?_, ?_, rfl⟩
    · refine ⟨{ u0 with password := B.hash adminPlaintext 10 salt }, ?_, rfl⟩
      have := hfilt (fun e => decide (e = adminEmail))
      rw [this, h0]
      simp [h0e]
    · have := hfilt (fun e => decide (e ≠ adminEmail))
      rw [this]
      conv_rhs => rw [← List.map_id (S.users.filter (fun v => decide (v.email ≠ adminEmail)))]
      apply List.map_congr_left
      intro a ha
      have hne : a.email ≠ adminEmail := by simpa using (List.mem_filter.mp ha).2
      simp [hne]
  · have hany := any_email_of_not_mem S.users adminEmail hex
    have hnone : S.users.filter (fun v => v.email = adminEmail) = [] := by
      rw [List.filter_eq_nil_iff]
      intro w hw hwe
      exact hex ⟨w, hw, by simpa using hwe⟩
    have hb : bootstrapAdmin B none salt now S = (.ensured, { S with
        users := S.users ++ [⟨nextRowid S.userSeq (S.users.map (fun u => u.id)), "Admin",
          adminEmail, B.hash adminPlaintext 10 salt, some "admin", none, none, none, now⟩],
        userSeq := nextRowid S.userSeq (S.users.map (fun u => u.id)) }) := by
      simp [bootstrapAdmin, upsertAdmin, hany]
    rw [hb]
    refine ⟨?_, ?_, ?_, rfl⟩
    · simp only [List.map_append, List.map_cons, List.map_nil]
      rw [List.nodup_append]
      refine ⟨huniq, by simp, ?_⟩
      intro a ha hb
      rw [List.mem_singleton] at hb
      subst hb
      obtain ⟨u, hu, hue⟩ := List.mem_map.mp ha
      exact hex ⟨u, hu, hue⟩
    · exact ⟨⟨nextRowid S.userSeq (S.users.map (fun u => u.id)), "Admin",
          adminEmail, B.hash adminPlaintext 10 salt, some "admin", none, none, none, now⟩,
        by simp [List.filter_append, hnone], rfl⟩
    · simp [List.filter_append]

/-- On the conflict path the startup routine rewrites the admin row's digest and
nothing else in `users`. -/
theorem bootstrapAdmin_conflict (B : Bcrypt) (salt : String) (now : Nat) (S : Store)
    (hex : ∃ u ∈ S.users, u.email = adminEmail) :
    (bootstrapAdmin B none salt now S).2.users
      = S.users.map (fun u =>
          if u.email = adminEmail then { u with password := B.hash adminPlaintext 10 salt }
          else u) := by
  simp [bootstrapAdmin, upsertAdmin, any_email_of_mem S.users adminEmail hex]

/-- C6. With unique emails, a correct digest library and no storage fault, two
successive runs of the admin upsert leave exactly one row with the admin email; its
digest is the one hashed by the second run and verifies against the well-known
password; every row with another email is as it was before the first run.  The second
run changes nothing but that digest: the `users` rows after it are the rows after the
first run with the admin row's password replaced, and `reports` is as it was at the
start. -/
theorem C6_bootstrap_twice (B : Bcrypt) (S : Store) (salt1 salt2 : String) (now1 now2 : Nat)
    (huniq : UniqueEmails S) (hB : BcryptCorrect B) :
    (∃ u, (bootstrapAdmin B none salt2 now2 (bootstrapAdmin B none salt1 now1 S).2).2.users.filter
          (fun v => v.email = adminEmail) = [u] ∧
      u.password = B.hash adminPlaintext 10 salt2 ∧
      B.compare adminPlaintext u.password = true) ∧
    (bootstrapAdmin B none salt2 now2 (bootstrapAdmin B none salt1 now1 S).2).2.users.filter
        (fun v => v.email ≠ adminEmail)
      = S.users.filter (fun v => v.email ≠ adminEmail) ∧
    (bootstrapAdmin B none salt2 now2 (bootstrapAdmin B none salt1 now1 S).2).2.users
      = (bootstrapAdmin B none salt1 now1 S).2.users.map (fun u =>
          if u.email = adminEmail then { u with password := B.hash adminPlaintext 10 salt2 }
          else u) ∧
    (bootstrapAdmin B none salt2 now2 (bootstrapAdmin B none salt1 now1 S).2).2.reports
      = S.reports := by
  obtain ⟨hu1, ⟨u1, hf1, _⟩, hother1, hrep1⟩ := bootstrapAdmin_effect B salt1 now1 S huniq
  obtain ⟨_, ⟨u, hu, hpw⟩, hother2, hrep2⟩ :=
    bootstrapAdmin_effect B salt2 now2 (bootstrapAdmin B none salt1 now1 S).2 hu1
  refine ⟨⟨u, hu, hpw, ?_⟩, ?_, ?_, ?_⟩
  · rw [hpw]; exact hB _ _ _
  · rw [hother2, hother1]
  · have hmem : u1 ∈ (bootstrapAdmin B none salt1 now1 S).2.users.filter
        (fun v => v.email = adminEmail) := by rw [hf1]; exact List.mem_singleton_self _
    obtain ⟨hin, hem⟩ := List.mem_filter.mp hmem
    exact bootstrapAdmin_conflict B salt2 now2 _ ⟨u1, hin, by simpa using hem⟩
  · rw [hrep2, hrep1]

/-- Two startups on a database that holds Ann's row only. -/
theorem C6_bootstrap_twice_witness :
    UniqueEmails ⟨[⟨1, "Ann", "ann@x.com", "ssecret1", some "citizen", none, none, none, 0⟩],
      1, [], 0⟩ ∧
    BcryptCorrect refBcrypt ∧
    (bootstrapAdmin refBcrypt none "b" 20 (bootstrapAdmin refBcrypt none "a" 10
        ⟨[⟨1, "Ann", "ann@x.com", "ssecret1", some "citizen", none, none, none, 0⟩],
          1, [], 0⟩).2).2.users.filter (fun v => v.email ≠ adminEmail)
      = (⟨[⟨1, "Ann", "ann@x.com", "ssecret1", some "citizen", none, none, none, 0⟩],
          1, [], 0⟩ : Store).users.filter (fun v => v.email ≠ adminEmail) :=
  ⟨by simp [UniqueEmails], refBcrypt_correct,
   (C6_bootstrap_twice refBcrypt
     ⟨[⟨1, "Ann", "ann@x.com", "ssecret1", some "citizen", none, none, none, 0⟩], 1, [], 0⟩
     "a" "b" 10 20 (by simp [UniqueEmails]) refBcrypt_correct).2.1⟩

/-- C7 fails on the code: on a database whose only row was registered with the admin
email and the default role, the startup routine reports success, overwrites the digest
and leaves the role `citizen`; no row with the admin email has role `admin`. -/
theorem C7_existing_row_keeps_role :
    (register refBcrypt refJwt "k" none "t" 0
        ⟨.str "Mallory", .str "admin@cityfix.com", .str "pw", .undefined⟩ emptyStore).2
      = ⟨[⟨1, "Mallory", "admin@cityfix.com", "tpw", some "citizen", none, none, none, 0⟩],
          1, [], 0⟩ ∧
    bootstrapAdmin refBcrypt none "s" 9
        ⟨[⟨1, "Mallory", "admin@cityfix.com", "tpw", some "citizen", none, none, none, 0⟩],
          1, [], 0⟩
      = (.ensured,
          ⟨[⟨1, "Mallory", "admin@cityfix.com", "sadmin123", some "citizen", none, none, none, 0⟩],
            2, [], 0⟩) ∧
    ¬ ∃ u ∈ (bootstrapAdmin refBcrypt none "s" 9
        ⟨[⟨1, "Mallory", "admin@cityfix.com", "tpw", some "citizen", none, none, none, 0⟩],
          1, [], 0⟩).2.users, u.email = adminEmail ∧ u.role = some "admin" := by
  refine ⟨?_, by decide, by decide⟩
  rw [register_new refBcrypt refJwt "k" emptyStore "t" 0 "Mallory" "admin@cityfix.com" "pw"
    .undefined (by simp [emptyStore])]
  rfl

end CityFix
namespace CityFix

/-! ## Ownership of reports along every run -/

theorem le_foldr_max (ids : List Nat) (n : Nat) (h : n ∈ ids) : n ≤ ids.foldr max 0 := by
  induction ids with
  | nil => simp at h
  | cons a as ih =>
    rcases List.mem_cons.mp h with h1 | h1
    · subst h1; simp [List.foldr]
    · have := ih h1
      simp only [List.foldr]
      exact le_trans this (le_max_right _ _)

theorem nextRowid_fresh (seq : Nat) (ids : List Nat) : nextRowid seq ids ∉ ids := by
  intro h
  have h1 := le_foldr_max ids _ h
  unfold nextRowid at h1
  have h2 : ids.foldr max 0 ≤ max seq (ids.foldr max 0) := le_max_right _ _
  omega

/-- The startup routine keeps the ids of `users`, or appends one fresh id; it never
touches `reports`. -/
theorem bootstrapAdmin_ids (B : Bcrypt) (fault : Option String) (salt : String) (now : Nat)
    (S : Store) :
    ((bootstrapAdmin B fault salt now S).2.users.map (fun u => u.id) = S.users.map (fun u => u.id) ∨
      (bootstrapAdmin B fault salt now S).2.users.map (fun u => u.id)
        = S.users.map (fun u => u.id) ++ [nextRowid S.userSeq (S.users.map (fun u => u.id))]) ∧
    (bootstrapAdmin B fault salt now S).2.reports = S.reports := by
  cases fault with
  | some msg => exact ⟨Or.inl rfl, rfl⟩
  | none =>
    by_cases hany : S.users.any (fun u => u.email = adminEmail) = true
    · have hb : bootstrapAdmin B none salt now S = (.ensured, { S with
          users := S.users.map (fun u =>
            if u.email = adminEmail then { u with password := B.hash adminPlaintext 10 salt }
            else u),
          userSeq := nextRowid S.userSeq (S.users.map (fun u => u.id)) }) := by
        simp [bootstrapAdmin, upsertAdmin, hany]
      rw [hb]
      refine ⟨Or.inl ?_, rfl⟩
      rw [List.map_map]
      apply List.map_congr_left
      intro a _
      by_cases ha : a.email = adminEmail <;> simp [ha]
    · have hb : bootstrapAdmin B none salt now S = (.ensured, { S with
          users := S.users ++ [⟨nextRowid S.userSeq (S.users.map (fun u => u.id)), "Admin",
            adminEmail, B.hash adminPlaintext 10 salt, some "admin", none, none, none, now⟩],
          userSeq := nextRowid S.userSeq (S.users.map (fun u => u.id)) }) := by
        simp [bootstrapAdmin, upsertAdmin, hany]
      rw [hb]
      exact ⟨Or.inr (by simp), rfl⟩

/-- A registration either leaves the store alone and issues no token, or appends one
row with a fresh id and issues a token signed for that id. -/
theorem register_cases (B : Bcrypt) (J : Jwt) (secret : String) (fault : Option String)
    (salt : String) (now : Nat) (body : RegisterBody) (S : Store) :
    ((register B J secret fault salt now body S).2 = S ∧
      (register B J secret fault salt now body S).1.tokens = []) ∨
    (∃ (row : UserRow) (c : Claims),
      (register B J secret fault salt now body S).2.users = S.users ++ [row] ∧
      (register B J secret fault salt now body S).2.reports = S.reports ∧
      row.id = nextRowid S.userSeq (S.users.map (fun u => u.id)) ∧
      c.id = row.id ∧
      (register B J secret fault salt now body S).1.tokens = [J.sign c secret]) := by
  unfold register
  cases bcryptHash B body.password 10 salt with
  | error msg => exact Or.inl ⟨rfl, rfl⟩
  | ok hashed =>
    dsimp only
    unfold insertUser
    cases fault with
    | some msg => dsimp only; split <;> exact Or.inl ⟨rfl, rfl⟩
    | none =>
      cases body.name.toSql with
      | none => exact Or.inl ⟨rfl, rfl⟩
      | some n =>
        cases body.email.toSql with
        | none => exact Or.inl ⟨rfl, rfl⟩
        | some e =>
          dsimp only
          by_cases hany : S.users.any (fun u => u.email = e) = true
          · rw [if_pos hany]
            exact Or.inl ⟨rfl, rfl⟩
          · rw [if_neg hany]
            exact Or.inr ⟨_, ⟨_, _, _, _, _⟩, rfl, rfl, rfl, rfl, rfl⟩

/-- A login that issues a token signs it for the id of a row of `users`. -/
theorem login_tokens (B : Bcrypt) (J : Jwt) (secret : String) (fault : Option String)
    (now : Nat) (body : LoginBody) (S : Store) (r : Response)
    (h : login B J secret fault now body S = some r) :
    ∀ tok ∈ r.tokens, ∃ c, tok = J.sign c secret ∧ ∃ u ∈ S.users, u.id = c.id := by
  unfold login at h
  cases hg : getUserByEmail fault body.email.toSql S with
  | error msg => rw [hg] at h; cases h; intro tok htok; simp [serverError, Response.tokens] at htok
  | ok found =>
    rw [hg] at h
    cases found with
    | none => cases h; intro tok htok; simp [invalidCredentials, Response.tokens] at htok
    | some user =>
      have hmem : user ∈ S.users := by
        unfold getUserByEmail at hg
        cases fault with
        | some msg => cases hg
        | none =>
          cases hbe : body.email.toSql with
          | none => rw [hbe] at hg; cases hg
          | some e =>
            rw [hbe] at hg
            injection hg with hg
            exact List.mem_of_find?_eq_some hg
      dsimp only at h
      cases hc : bcryptCompare B body.password user.password with
      | error msg => rw [hc] at h; cases h
      | ok b =>
        rw [hc] at h
        cases b with
        | false => cases h; intro tok htok; simp [invalidCredentials, Response.tokens] at htok
        | true =>
          cases h
          intro tok htok
          simp only [Response.tokens, List.mem_singleton] at htok
          exact ⟨_, htok, user, hmem, rfl⟩

/-- The handler appends at most one report, owned by the identity it was given, and
never touches `users`. -/
theorem submitReport_cases (fault : Option String) (now : Nat) (user : Claims)
    (body : ReportBody) (file : Option String) (S : Store) :
    (submitReport fault now user body file S).2.users = S.users ∧
    ((submitReport fault now user body file S).2.reports = S.reports ∨
      ∃ row : ReportRow, row.user_id = some user.id ∧
        (submitReport fault now user body file S).2.reports = S.reports ++ [row]) := by
  unfold submitReport insertReport
  cases fault with
  | some msg => exact ⟨rfl, Or.inl rfl⟩
  | none =>
    cases body.category.toSql with
    | none => exact ⟨rfl, Or.inl rfl⟩
    | some c => exact ⟨rfl, Or.inr ⟨_, rfl, rfl⟩⟩

/-- What holds of every world a run can reach. -/
theorem worldInv_init (J : Jwt) (secret : String) : WorldInv J secret ⟨emptyStore, []⟩ := by
  refine ⟨by simp [emptyStore], ?_, ?_⟩
  · intro tok h; simp at h
  · intro r h; simp [emptyStore] at h

theorem worldInv_step (B : Bcrypt) (J : Jwt) (secret : String) (hJ : JwtSound J secret)
    (w : World) (a : Action) (hw : WorldInv J secret w) :
    WorldInv J secret (step B J secret w a) := by
  obtain ⟨hnd, htok, hrep⟩ := hw
  have grow : ∀ (users2 : List UserRow),
      (users2.map (fun u => u.id) = w.store.users.map (fun u => u.id) ∨
        users2.map (fun u => u.id) = w.store.users.map (fun u => u.id) ++
          [nextRowid w.store.userSeq (w.store.users.map (fun u => u.id))]) →
      (users2.map (fun u => u.id)).Nodup ∧
      ∀ n, (∃ u ∈ w.store.users, u.id = n) → ∃ u ∈ users2, u.id = n := by
    intro users2 h
    have hsub : ∀ n, n ∈ w.store.users.map (fun u => u.id) → n ∈ users2.map (fun u => u.id) := by
      intro n hn
      rcases h with h | h <;> rw [h]
      · exact hn
      · exact List.mem_append_left _ hn
    refine ⟨?_, ?_⟩
    · rcases h with h | h <;> rw [h]
      · exact hnd
      · rw [List.nodup_append]
        refine ⟨hnd, List.nodup_singleton _, ?_⟩
        intro a ha hb
        rw [List.mem_singleton] at hb
        subst hb
        exact nextRowid_fresh _ _ ha
    · rintro n ⟨u, hu, hun⟩
      have := hsub n (List.mem_map.mpr ⟨u, hu, hun⟩)
      obtain ⟨v, hv, hvn⟩ := List.mem_map.mp this
      exact ⟨v, hv, hvn⟩
  cases a with
  | boot fault salt now =>
    obtain ⟨hids, hreports⟩ := bootstrapAdmin_ids B fault salt now w.store
    obtain ⟨hnd2, hmono⟩ := grow _ hids
    refine ⟨hnd2, ?_, ?_⟩
    · intro tok ht
      obtain ⟨c, hc, hu⟩ := htok tok ht
      exact ⟨c, hc, hmono _ hu⟩
    · intro r hr
      simp only [step] at hr
      rw [hreports] at hr
      obtain ⟨n, hn, hu⟩ := hrep r hr
      exact ⟨n, hn, hmono _ hu⟩
  | register fault salt now body =>
    rcases register_cases B J secret fault salt now body w.store with ⟨hS, ht⟩ | ⟨row, c, hus, hrs, hid, hcid, ht⟩
    · simp only [step, WorldInv, hS, ht, List.append_nil]
      exact ⟨hnd, htok, hrep⟩
    · have hids : (register B J secret fault salt now body w.store).2.users.map (fun u => u.id)
            = w.store.users.map (fun u => u.id) ++
              [nextRowid w.store.userSeq (w.store.users.map (fun u => u.id))] := by
        rw [hus]; simp [hid]
      obtain ⟨hnd2, hmono⟩ := grow _ (Or.inr hids)
      refine ⟨hnd2, ?_, ?_⟩
      · intro tok htk
        simp only [step, ht, List.mem_append, List.mem_singleton] at htk
        rcases htk with h | h
        · obtain ⟨c0, hc0, hu⟩ := htok tok h
          exact ⟨c0, hc0, hmono _ hu⟩
        · refine ⟨c, h, row, ?_, hcid.symm⟩
          simp only [step]
          rw [hus]
          exact List.mem_append_right _ (List.mem_singleton_self _)
      · intro r hr
        simp only [step] at hr
        rw [hrs] at hr
        obtain ⟨n, hn, hu⟩ := hrep r hr
        exact ⟨n, hn, hmono _ hu⟩
  | login fault now body =>
    simp only [step]
    cases hl : login B J secret fault now body w.store with
    | none => exact ⟨hnd, htok, hrep⟩
    | some r =>
      refine ⟨hnd, ?_, hrep⟩
      intro tok htk
      simp only [List.mem_append] at htk
      rcases htk with h | h
      · exact htok tok h
      · exact login_tokens B J secret fault now body w.store r hl tok h
  | submit token clock fault now body file =>
    simp only [step]
    by_cases hmem : token ∈ w.issued
    · rw [if_pos hmem]
      cases hv : J.verify token secret clock with
      | none => exact ⟨hnd, htok, hrep⟩
      | some user =>
        obtain ⟨c, hc, hu⟩ := htok token hmem
        rw [hc] at hv
        have huc : user = c := hJ c user clock hv
        obtain ⟨husers, hreports⟩ := submitReport_cases fault now user body file w.store
        refine ⟨by dsimp only; rw [husers]; exact hnd, ?_, ?_⟩
        · intro tok ht
          obtain ⟨c0, hc0, hu0⟩ := htok tok ht
          exact ⟨c0, hc0, by dsimp only; rw [husers]; exact hu0⟩
        · intro r hr
          dsimp only at hr ⊢
          rw [husers]
          rcases hreports with h | ⟨row, hrow, h⟩
          · rw [h] at hr; exact hrep r hr
          · rw [h, List.mem_append, List.mem_singleton] at hr
            rcases hr with hr | hr
            · exact hrep r hr
            · subst hr
              exact ⟨user.id, hrow, by rw [huc]; exact hu⟩
    · rw [if_neg hmem]
      exact ⟨hnd, htok, hrep⟩

theorem worldInv_foldl (B : Bcrypt) (J : Jwt) (secret : String) (hJ : JwtSound J secret)
    (actions : List Action) (w : World) (hw : WorldInv J secret w) :
    WorldInv J secret (actions.foldl (step B J secret) w) := by
  induction actions generalizing w with
  | nil => exact hw
  | cons a as ih => exact ih _ (worldInv_step B J secret hJ w a hw)

/-- C10. In every world reached from the empty store by startups, registrations,
logins and submissions, a submission reaching the handler only with the identity
obtained by verifying a token that register or login issued, every report row has
exactly one owner: its `user_id` is not NULL and is the id of exactly one row of
`users`. -/
theorem C10_reports_have_one_owner (B : Bcrypt) (J : Jwt) (secret : String)
    (hJ : JwtSound J secret) (actions : List Action) :
    ∀ r ∈ (run B J secret actions).store.reports,
      ∃ n, r.user_id = some n ∧
        ∃! u, u ∈ (run B J secret actions).store.users ∧ u.id = n := by
  obtain ⟨hnd, _, hrep⟩ := worldInv_foldl B J secret hJ actions _ (worldInv_init J secret)
  intro r hr
  obtain ⟨n, hn, u, hu, hun⟩ := hrep r hr
  refine ⟨n, hn, u, ⟨hu, hun⟩, ?_⟩
  rintro v ⟨hv, hvn⟩
  exact List.inj_on_of_nodup_map hnd hv hu (hvn.trans hun.symm)

end CityFix
namespace CityFix

/-- A startup, a registration and a report submitted with the token the registration
returned: the new user gets id 2 and the one report is owned by that id. -/
theorem run_boot_register_submit (B : Bcrypt) (J : Jwt) (secret : String)
    (hJ : JwtComplete J secret) :
    (run B J secret
      [.boot none "a" 0,
       .register none "s" 5 ⟨.str "Ann", .str "ann@x.com", .str "secret1", .undefined⟩,
       .submit (J.sign ⟨2, .str "ann@x.com", .str "citizen", 5, 5 + 86400⟩ secret) 7 none 8
         ⟨.str "pothole", .undefined, .undefined, .undefined, .str "deep hole"⟩
         none]).store.reports.map (fun r => r.user_id) = [some 2] := by
  have hboot : (bootstrapAdmin B none "a" 0 emptyStore).2
      = ⟨[⟨1, "Admin", "admin@cityfix.com", B.hash adminPlaintext 10 "a", some "admin",
          none, none, none, 0⟩], 1, [], 0⟩ := by
    simp [bootstrapAdmin, upsertAdmin, emptyStore, nextRowid, adminEmail]
  have hreg := register_new B J secret
    ⟨[⟨1, "Admin", "admin@cityfix.com", B.hash adminPlaintext 10 "a", some "admin",
      none, none, none, 0⟩], 1, [], 0⟩
    "s" 5 "Ann" "ann@x.com" "secret1" .undefined (by simp)
  have hid : nextRowid 1 [1] = 2 := by decide
  have hver : J.verify (J.sign ⟨2, .str "ann@x.com", .str "citizen", 5, 5 + 86400⟩ secret) secret 7
      = some ⟨2, .str "ann@x.com", .str "citizen", 5, 5 + 86400⟩ :=
    hJ ⟨2, .str "ann@x.com", .str "citizen", 5, 5 + 86400⟩ 7 (by norm_num)
  simp only [run, List.foldl, step, hboot, hreg, List.map, hid, defaultRole, Response.tokens,
    jwtSign, List.nil_append, List.mem_singleton, if_true, hver]

/-- The run of `run_boot_register_submit` with the reference libraries. -/
theorem C10_reports_have_one_owner_witness :
    JwtSound refJwt "k" ∧
    (run refBcrypt refJwt "k"
      [.boot none "a" 0,
       .register none "s" 5 ⟨.str "Ann", .str "ann@x.com", .str "secret1", .undefined⟩,
       .submit (refJwt.sign ⟨2, .str "ann@x.com", .str "citizen", 5, 5 + 86400⟩ "k") 7 none 8
         ⟨.str "pothole", .undefined, .undefined, .undefined, .str "deep hole"⟩
         none]).store.reports.map (fun r => r.user_id) = [some 2] ∧
    ∀ r ∈ (run refBcrypt refJwt "k"
      [.boot none "a" 0,
       .register none "s" 5 ⟨.str "Ann", .str "ann@x.com", .str "secret1", .undefined⟩,
       .submit (refJwt.sign ⟨2, .str "ann@x.com", .str "citizen", 5, 5 + 86400⟩ "k") 7 none 8
         ⟨.str "pothole", .undefined, .undefined, .undefined, .str "deep hole"⟩
         none]).store.reports,
      ∃ n, r.user_id = some n ∧
        ∃! u, u ∈ (run refBcrypt refJwt "k"
          [.boot none "a" 0,
           .register none "s" 5 ⟨.str "Ann", .str "ann@x.com", .str "secret1", .undefined⟩,
           .submit (refJwt.sign ⟨2, .str "ann@x.com", .str "citizen", 5, 5 + 86400⟩ "k") 7 none 8
             ⟨.str "pothole", .undefined, .undefined, .undefined, .str "deep hole"⟩
             none]).store.users ∧ u.id = n :=
  ⟨refJwt_sound "k", run_boot_register_submit refBcrypt refJwt "k" (refJwt_complete "k"),
   C10_reports_have_one_owner refBcrypt refJwt "k" (refJwt_sound "k") _⟩

end CityFix
